import Mathlib

/-!
Verification of `delete-old-files` (src/main.go): a CLI tool that deletes a
bounded number of the oldest files in a directory whose names match a regular
expression.  The Go source is shallowly embedded below: the pure pipeline
stages of `app.Action` become Lean functions over explicit inputs, the
interactive / filesystem collaborators (survey prompts, `os.Remove`) become
explicit parameters recording their results, and Go's 64-bit `int` arithmetic
is modelled on `Int` with explicit wrapping where overflow matters.
-/

/-- Snapshot of one file as produced by the directory listing: Go
`os.FileInfo`'s `Name()`, `Size()` (an `int64` byte count) and `ModTime()`
(modelled as an integer timestamp; `time.Time.Before` is `<` on this axis). -/
structure FileInfo where
  name : String
  size : Int
  modTime : Int
  deriving DecidableEq

/-- One entry of the raw directory read (`fdDir.ReadDir(-1)` in `listByTime`):
its `IsDir()` flag and its `Info()` result.  `Info()` is modelled as always
succeeding (in the Go code an entry whose `Info()` errors is skipped; the
success path is what the spec describes). -/
structure DirEntry where
  isDir : Bool
  info : FileInfo
  deriving DecidableEq

/-- Model of Go's `regexp` library collaborator: abstract syntax of a compiled
regular expression (empty language, empty string, single character,
alternation, concatenation, Kleene star). -/
inductive Regex where
  | fail
  | eps
  | char (c : Char)
  | alt (r s : Regex)
  | cat (r s : Regex)
  | star (r : Regex)
  deriving DecidableEq

/-- Whether a regular expression accepts the empty string. -/
def nullable : Regex → Bool
  | .fail => false
  | .eps => true
  | .char _ => false
  | .alt r s => nullable r || nullable s
  | .cat r s => nullable r && nullable s
  | .star _ => true

/-- Brzozowski derivative of a regular expression by one character. -/
def rderiv : Regex → Char → Regex
  | .fail, _ => .fail
  | .eps, _ => .fail
  | .char c, d => if c = d then .eps else .fail
  | .alt r s, d => .alt (rderiv r d) (rderiv s d)
  | .cat r s, d =>
      if nullable r then .alt (.cat (rderiv r d) s) (rderiv s d)
      else .cat (rderiv r d) s
  | .star r, d => .cat (rderiv r d) (.star r)

/-- Whether the regular expression matches the ENTIRE character list
(anchored match), via iterated derivatives. -/
def fullMatch (r : Regex) (cs : List Char) : Bool :=
  nullable (cs.foldl rderiv r)

/-- Whether the regular expression matches some initial segment of the
character list (a match starting at this position). -/
def matchHere (r : Regex) : List Char → Bool
  | [] => nullable r
  | c :: cs => nullable r || matchHere (rderiv r c) cs

/-- Scan every start position: whether some substring beginning at some
position matches. -/
def matchScan (r : Regex) : List Char → Bool
  | [] => nullable r
  | c :: cs => matchHere r (c :: cs) || matchScan r cs

/-- Model of Go `regexp.Regexp.MatchString`: reports whether the string
contains any match of the regular expression (unanchored). -/
def MatchString (r : Regex) (s : String) : Bool :=
  matchScan r s.data

/-- Model of Go `path.Base` (library collaborator), used on `os.Args[0]` at
src/main.go:62: the last element of the path after trailing slashes are
removed; `"/"` for an all-slash path, `"."` for the empty path. -/
def pathBase (s : String) : String :=
  if s.data = [] then "."
  else
    let t := s.data.reverse.dropWhile (fun c => c == '/')
    let base := t.takeWhile (fun c => c != '/')
    if base = [] then "/" else String.mk base.reverse

/-- The match loop of `app.Action` (src/main.go:69-77): keep, in listing
order, every entry whose name differs from the program's own file name and
matches the pattern. -/
def matchLoop (re : Regex) (fileNameSelf : String) : List FileInfo → List FileInfo
  | [] => []
  | fi :: rest =>
      if fi.name = fileNameSelf then matchLoop re fileNameSelf rest
      else if MatchString re fi.name then fi :: matchLoop re fileNameSelf rest
      else matchLoop re fileNameSelf rest

/-- Two's-complement wrap of an integer into the `int64` range, used where the
Go code's 64-bit arithmetic can overflow (the negation `-number` at
src/main.go:90). -/
def wrapInt64 (x : Int) : Int :=
  (x + 9223372036854775808) % 18446744073709551616 - 9223372036854775808

/-- Result of the count-selector block of `app.Action` (src/main.go:84-96):
either a selected slice, the terminal "all files kept" message, or a Go
runtime panic (slice bounds out of range, reachable when `len+number < 0`). -/
inductive SelectStep where
  | selected (files : List FileInfo)
  | allKept
  | crashed
  deriving DecidableEq

/-- The count-selector block of `app.Action` (src/main.go:84-96), with Go
`int` (64-bit) semantics: `number > 0` truncates to the first `number`
matches when more are present; `number < 0` keeps the newest `-number`
(computed with wrapping negation) or reports all-kept; `number == 0` keeps
everything.  `arrMatch[:len(arrMatch)+number]` panics when the bound is
negative. -/
def countSelect (number : Int) (arrMatch : List FileInfo) : SelectStep :=
  if 0 < number then
    if number < (arrMatch.length : Int) then .selected (arrMatch.take number.toNat)
    else .selected arrMatch
  else if number < 0 then
    if wrapInt64 (-number) < (arrMatch.length : Int) then
      if ((arrMatch.length : Int) + number) < 0 then .crashed
      else .selected (arrMatch.take ((arrMatch.length : Int) + number).toNat)
    else .allKept
  else .selected arrMatch

/-- The filtering loop of `listByTime` (src/main.go:184-191): collect, in
read order, the `Info()` of every non-directory entry. -/
def collectRegular : List DirEntry → List FileInfo
  | [] => []
  | e :: rest => if e.isDir then collectRegular rest else e.info :: collectRegular rest

/-- `sortByModtime.Less` (src/main.go:250-252):
`s[i].ModTime().Before(s[j].ModTime())`. -/
def lessModtime (a b : FileInfo) : Bool :=
  decide (a.modTime < b.modTime)

/-- The contract of the Go standard library's `sort.Sort` applied to
`sortByModtime` (src/main.go:193): the output is a permutation of the input
that is nondecreasing under `Less`.  `sort.Sort` is documented as NOT
guaranteed to be stable, so this is a relation: every output satisfying the
contract is a possible behaviour. -/
def sortSortContract (input output : List FileInfo) : Prop :=
  List.Perm output input ∧ List.Pairwise (fun a b => lessModtime b a = false) output

/-- `listByTime` (src/main.go:167-195) on the success path, as a relation
from the raw directory read to the returned slice: the non-directory entries
are collected and then sorted by `sort.Sort(sortByModtime(...))`. -/
def listByTimeRel (entries : List DirEntry) (output : List FileInfo) : Prop :=
  sortSortContract (collectRegular entries) output

/-- `uint64(fi.Size())` (src/main.go:215): conversion of an `int64` to
`uint64`, i.e. the two's-complement residue mod 2^64. -/
def u64 (x : Int) : Nat :=
  (x % 18446744073709551616).toNat

/-- The rendering loop of `printResult` (src/main.go:214-224): running index
`i`, running `uint64` total; every record's size is added to the total, but a
row is appended only while `i < 30` (`truncateLen`).  Returns (rows appended,
final total). -/
def printLoop (i : Nat) (totalSize : Nat) : List FileInfo → List FileInfo × Nat
  | [] => ([], totalSize)
  | fi :: rest =>
      let t := (totalSize + u64 fi.size) % 18446744073709551616
      if 30 ≤ i then printLoop (i + 1) t rest
      else
        let out := printLoop (i + 1) t rest
        (fi :: out.1, out.2)

/-- Observable output of `printResult` (src/main.go:197-234): the rows
appended to the table, the count printed in the summary line (`len(r)`), the
`uint64` total size printed in the summary line, and whether the summary
carries the "Showing first 30 files only" truncation prefix
(`len(r) > truncateLen`). -/
structure PrintOut where
  rows : List FileInfo
  totalCount : Nat
  totalSize : Nat
  truncated : Bool
  deriving DecidableEq

/-- `printResult` (src/main.go:197-234) as a pure function to its observable
output. -/
def printResult (r : List FileInfo) : PrintOut :=
  let out := printLoop 0 0 r
  ⟨out.1, r.length, out.2, decide (30 < r.length)⟩

/-- The deletion loop of `app.Action` (src/main.go:148-155): attempt
`os.Remove` on every file in order (a failure is logged and flags `hasErr`
but does not stop the loop).  `removeOk` records, per file name, whether the
removal succeeds (the directory path is fixed for the run).  Returns the
names attempted, in order, and the final `hasErr`. -/
def deleteLoop (removeOk : String → Bool) : List FileInfo → List String × Bool
  | [] => ([], false)
  | fi :: rest =>
      let out := deleteLoop removeOk rest
      (fi.name :: out.1, (!removeOk fi.name) || out.2)

/-- Terminal outcome of one run of `app.Action`. -/
inductive Outcome where
  | noMatches
  | allKept
  | crashed
  | dryRunExit (shown : List FileInfo)
  | aborted
  | deleted (attempted : List String) (hasErr : Bool)
  deriving DecidableEq

/-- The batch-deletion tail of `app.Action` (src/main.go:148-161). -/
def runDelete (removeOk : String → Bool) (arrMatch : List FileInfo) : Outcome :=
  let out := deleteLoop removeOk arrMatch
  .deleted out.1 out.2

/-- Go map lookup for `mapSel` (src/main.go:119-124): the map is filled in
slice order, later entries overwriting earlier ones, so a lookup returns the
last record with the given name. -/
def mapSelGet (arrMatch : List FileInfo) (key : String) : Option FileInfo :=
  arrMatch.reverse.find? (fun fi => fi.name == key)

/-- The confirmation-and-deletion tail of `app.Action` (src/main.go:104-161).
`promptAns` is the result of the `survey.Select` prompt (`none` when `AskOne`
fails: the error is ignored and `ans` keeps its preset value `"No"`);
`pickAns` is the result of the `survey.MultiSelect` prompt (`none` when it
fails: `arrAns` stays empty).  A successful `MultiSelect` answer is a subset
of the offered names, so each `mapSel` lookup succeeds; lookups are modelled
with `filterMap`. -/
def confirmAndDelete (arrMatch : List FileInfo) (yesFlag : Bool)
    (promptAns : Option String) (pickAns : Option (List String))
    (removeOk : String → Bool) : Outcome :=
  if yesFlag then runDelete removeOk arrMatch
  else
    let ans := promptAns.getD "No"
    if ans = "Yes" then runDelete removeOk arrMatch
    else if ans = "Pick" then
      let arrAns := pickAns.getD []
      let picked := arrAns.filterMap (mapSelGet arrMatch)
      if 0 < picked.length then runDelete removeOk picked else .aborted
    else .aborted

/-- `app.Action` (src/main.go:55-162) after a successful pattern compile and
directory listing: `arrFileInfo` is the (oldest-first) result of
`listByTime`, the flags and prompt results are explicit arguments, and the
run's terminal outcome is returned.  `printResult` (src/main.go:98) is pure
rendering; the shown selection is recorded in the dry-run outcome. -/
def action (re : Regex) (fileNameSelf : String) (arrFileInfo : List FileInfo)
    (number : Int) (dryRun yesFlag : Bool)
    (promptAns : Option String) (pickAns : Option (List String))
    (removeOk : String → Bool) : Outcome :=
  let arrMatch := matchLoop re fileNameSelf arrFileInfo
  if arrMatch.length = 0 then .noMatches
  else
    match countSelect number arrMatch with
    | .allKept => .allKept
    | .crashed => .crashed
    | .selected sel =>
        if dryRun then .dryRunExit sel
        else confirmAndDelete sel yesFlag promptAns pickAns removeOk

/-- Names on which the run attempted `os.Remove`. -/
def attemptedDeletions : Outcome → List String
  | .deleted att _ => att
  | _ => []

/-- Whether the run terminates as an error: a non-`nil` return from `Action`
(`Failed to delete some files`, src/main.go:157-159) or a runtime panic; the
informational outcomes return `nil` (exit zero). -/
def isError : Outcome → Bool
  | .crashed => true
  | .deleted _ hasErr => hasErr
  | _ => false

/-! ## Regular-expression matching lemmas -/

lemma matchHere_iff (cs : List Char) : ∀ r : Regex,
    matchHere r cs = true ↔ ∃ mid post, cs = mid ++ post ∧ fullMatch r mid = true := by
  induction cs with
  | nil =>
      intro r
      constructor
      · intro h
        exact ⟨[], [], rfl, h⟩
      · rintro ⟨mid, post, heq, hm⟩
        rcases List.append_eq_nil.mp heq.symm with ⟨h1, h2⟩
        subst h1
        exact hm
  | cons c cs ih =>
      intro r
      simp only [matchHere, Bool.or_eq_true]
      constructor
      · intro h
        rcases h with h | h
        · exact ⟨[], c :: cs, rfl, h⟩
        · rcases (ih (rderiv r c)).mp h with ⟨mid, post, heq, hm⟩
          refine ⟨c :: mid, post, by rw [heq]; rfl, ?_⟩
          simpa [fullMatch, List.foldl_cons] using hm
      · rintro ⟨mid, post, heq, hm⟩
        cases mid with
        | nil =>
            exact Or.inl hm
        | cons m mid =>
            simp only [List.cons_append] at heq
            injection heq with hc hrest
            subst hc
            refine Or.inr ?_
            refine (ih (rderiv r c)).mpr ⟨mid, post, hrest, ?_⟩
            simpa [fullMatch, List.foldl_cons] using hm

lemma matchScan_iff (cs : List Char) : ∀ r : Regex,
    matchScan r cs = true ↔ ∃ pre rest, cs = pre ++ rest ∧ matchHere r rest = true := by
  induction cs with
  | nil =>
      intro r
      constructor
      · intro h
        exact ⟨[], [], rfl, h⟩
      · rintro ⟨pre, rest, heq, hm⟩
        rcases List.append_eq_nil.mp heq.symm with ⟨h1, h2⟩
        subst h1; subst h2
        exact hm
  | cons c cs ih =>
      intro r
      simp only [matchScan, Bool.or_eq_true]
      constructor
      · intro h
        rcases h with h | h
        · exact ⟨[], c :: cs, rfl, h⟩
        · rcases (ih r).mp h with ⟨pre, rest, heq, hm⟩
          exact ⟨c :: pre, rest, by rw [heq]; rfl, hm⟩
      · rintro ⟨pre, rest, heq, hm⟩
        cases pre with
        | nil =>
            rcases heq with rfl
            exact Or.inl hm
        | cons p pre =>
            simp only [List.cons_append] at heq
            injection heq with hc hrest
            subst hc
            exact Or.inr ((ih r).mpr ⟨pre, rest, hrest, hm⟩)

lemma matchString_iff (r : Regex) (s : String) :
    MatchString r s = true ↔
      ∃ pre mid post, s.data = pre ++ mid ++ post ∧ fullMatch r mid = true := by
  unfold MatchString
  rw [matchScan_iff s.data r]
  constructor
  · rintro ⟨pre, rest, heq, hh⟩
    rcases (matchHere_iff rest r).mp hh with ⟨mid, post, heq2, hm⟩
    exact ⟨pre, mid, post, by rw [heq, heq2, List.append_assoc], hm⟩
  · rintro ⟨pre, mid, post, heq, hm⟩
    refine ⟨pre, mid ++ post, by rw [heq, List.append_assoc], ?_⟩
    exact (matchHere_iff (mid ++ post) r).mpr ⟨mid, post, rfl, hm⟩

lemma matchLoop_eq_filter (re : Regex) (self : String) (l : List FileInfo) :
    matchLoop re self l
      = l.filter (fun fi => !(decide (fi.name = self)) && MatchString re fi.name) := by
  induction l with
  | nil => rfl
  | cons fi rest ih =>
      by_cases h1 : fi.name = self
      · simp [matchLoop, h1, List.filter_cons, ih]
      · cases h2 : MatchString re fi.name with
        | false => simp [matchLoop, h1, h2, List.filter_cons, ih]
        | true => simp [matchLoop, h1, h2, List.filter_cons, ih]

/-- The specification's example pattern `log`: the literal concatenation
l·o·g. -/
def logPattern : Regex := .cat (.char 'l') (.cat (.char 'o') (.char 'g'))

/-- C9: Pattern matching is unanchored: the Pattern Filter accepts a file
name exactly when the regular expression matches some substring of the name
(Go `MatchString` semantics), not only when it matches the entire name; in
particular the pattern `log` matches the file `catalog.txt` although it does
not match that entire name. -/
theorem matchString_unanchored_spec (r : Regex) (self : String) (fi : FileInfo)
    (l : List FileInfo) :
    (fi ∈ matchLoop r self l ↔
      fi ∈ l ∧ fi.name ≠ self ∧ MatchString r fi.name = true) ∧
    (MatchString r fi.name = true ↔
      ∃ pre mid post, fi.name.data = pre ++ mid ++ post ∧ fullMatch r mid = true) ∧
    MatchString logPattern "catalog.txt" = true ∧
    fullMatch logPattern "catalog.txt".data = false := by
  refine ⟨?_, matchString_iff r fi.name, by decide, by decide⟩
  rw [matchLoop_eq_filter]
  simp [List.mem_filter, Bool.and_eq_true, Bool.not_eq_true', decide_eq_false_iff_not,
    and_assoc]

/-- C3: an entry whose name equals the base name of the invoking program's
executable (argv[0]) is never in the match set, even if its name matches the
pattern; all other entries whose names match are kept, in the same
(oldest-first) order — the match loop is exactly a filter of its input. -/
theorem selfExclusion_spec (r : Regex) (argv0 : String) (l : List FileInfo) :
    matchLoop r (pathBase argv0) l
      = l.filter
          (fun fi => !(decide (fi.name = pathBase argv0)) && MatchString r fi.name) ∧
    ∀ fi, fi ∈ matchLoop r (pathBase argv0) l → fi.name ≠ pathBase argv0 := by
  refine ⟨matchLoop_eq_filter r (pathBase argv0) l, ?_⟩
  intro fi hmem
  rw [matchLoop_eq_filter] at hmem
  rcases List.mem_filter.mp hmem with ⟨-, hp⟩
  simp only [Bool.and_eq_true, Bool.not_eq_true', decide_eq_false_iff_not] at hp
  exact hp.1

/-! ## Count-selector lemmas -/

lemma wrapInt64_eq_self (x : Int) (h0 : -9223372036854775808 ≤ x)
    (h1 : x < 9223372036854775808) : wrapInt64 x = x := by
  unfold wrapInt64
  rw [Int.emod_eq_of_lt (by omega) (by omega)]
  omega

lemma countSelect_ne_crashed (n : Int) (l : List FileInfo)
    (hn : -9223372036854775808 < n) : countSelect n l ≠ .crashed := by
  unfold countSelect
  by_cases hp : 0 < n
  · rw [if_pos hp]
    split <;> simp
  · rw [if_neg hp]
    by_cases hneg : n < 0
    · rw [if_pos hneg, wrapInt64_eq_self (-n) (by omega) (by omega)]
      by_cases hlt : -n < (l.length : Int)
      · rw [if_pos hlt, if_neg (by omega : ¬ ((l.length : Int) + n) < 0)]
        simp
      · rw [if_neg hlt]
        simp
    · rw [if_neg hneg]
      simp

/-- Concrete sample files used by witnesses and counterexamples. -/
def sampleFiles : List FileInfo := [⟨"a1", 1, 10⟩, ⟨"a2", 2, 20⟩, ⟨"a3", 3, 30⟩]

/-- Concrete sample pattern (the single character `a`) used by witnesses and
counterexamples. -/
def patternA : Regex := .char 'a'

/-- C1: for every (oldest-first) list of matches and integer `n ≥ 0`: `n = 0`
selects every match (the list is unchanged), and `n > 0` selects exactly the
first `min(n, len)` matches — the whole list when `len ≤ n`. -/
theorem countSelector_nonneg_spec (n : Int) (l : List FileInfo) (h0 : 0 ≤ n) :
    (n = 0 → countSelect n l = .selected l) ∧
    (0 < n → countSelect n l = .selected (l.take n.toNat) ∧
      (l.take n.toNat).length = min n.toNat l.length ∧
      ((l.length : Int) ≤ n → countSelect n l = .selected l)) := by
  constructor
  · rintro rfl
    simp [countSelect]
  · intro hpos
    unfold countSelect
    rw [if_pos hpos]
    by_cases hlt : n < (l.length : Int)
    · rw [if_pos hlt]
      refine ⟨rfl, ?_, ?_⟩
      · simp [List.length_take]
      · intro hle
        omega
    · rw [if_neg hlt]
      have hlen : l.length ≤ n.toNat := by omega
      refine ⟨?_, ?_, fun _ => rfl⟩
      · rw [List.take_of_length_le hlen]
      · rw [List.take_of_length_le hlen]
        omega

/-- Witness for C1 at `n = 2` over a three-element list. -/
theorem countSelector_nonneg_spec_witness :
    ((0 : Int) ≤ 2) ∧
    (((2 : Int) = 0 → countSelect 2 sampleFiles = .selected sampleFiles) ∧
      ((0 : Int) < 2 →
        countSelect 2 sampleFiles = .selected (sampleFiles.take (2 : Int).toNat) ∧
        (sampleFiles.take (2 : Int).toNat).length
          = min (2 : Int).toNat sampleFiles.length ∧
        ((sampleFiles.length : Int) ≤ 2 →
          countSelect 2 sampleFiles = .selected sampleFiles))) :=
  ⟨by decide, countSelector_nonneg_spec 2 sampleFiles (by decide)⟩

/-- C2 (amended): for every (oldest-first) list of matches and integer `n`
with `-2^63 < n < 0`: if `len > -n` the selector selects exactly the first
`len + n` matches (all but the `-n` newest); if `len <= -n` it selects
nothing, the run reports "all kept" and terminates as a non-error with no
deletion attempted.  (At `n = -2^63` the 64-bit negation `-number` overflows
and the program instead panics on a negative slice bound; see the
counterexample.) -/
theorem countSelector_neg_spec (n : Int) (l : List FileInfo)
    (re : Regex) (self : String) (files : List FileInfo) (dR yF : Bool)
    (pr : Option String) (pk : Option (List String)) (rk : String → Bool)
    (h1 : -9223372036854775808 < n) (h2 : n < 0)
    (hm : matchLoop re self files = l) :
    (-n < (l.length : Int) →
      countSelect n l = .selected (l.take ((l.length : Int) + n).toNat) ∧
      (l.take ((l.length : Int) + n).toNat).length = ((l.length : Int) + n).toNat) ∧
    (l ≠ [] → (l.length : Int) ≤ -n →
      action re self files n dR yF pr pk rk = .allKept ∧
      isError (action re self files n dR yF pr pk rk) = false ∧
      attemptedDeletions (action re self files n dR yF pr pk rk) = []) := by
  have hwrap : wrapInt64 (-n) = -n := wrapInt64_eq_self (-n) (by omega) (by omega)
  constructor
  · intro hlt
    unfold countSelect
    rw [if_neg (by omega : ¬ 0 < n), if_pos h2, hwrap, if_pos hlt,
      if_neg (by omega : ¬ ((l.length : Int) + n) < 0)]
    refine ⟨rfl, ?_⟩
    rw [List.length_take]
    omega
  · intro hne hle
    have hkept : countSelect n l = .allKept := by
      unfold countSelect
      rw [if_neg (by omega : ¬ 0 < n), if_pos h2, hwrap,
        if_neg (by omega : ¬ -n < (l.length : Int))]
    have hact : action re self files n dR yF pr pk rk = .allKept := by
      simp only [action]
      rw [hm, if_neg (fun h => hne (List.length_eq_zero.mp h)), hkept]
    exact ⟨hact, by rw [hact]; rfl, by rw [hact]; rfl⟩

/-- Witness for C2, exercising both sides of the boundary: `n = -2` selects
all but the two newest of three files, and `n = -5` keeps all three files
with a non-error terminal outcome. -/
theorem countSelector_neg_spec_witness :
    ((-9223372036854775808 : Int) < -2 ∧ (-2 : Int) < 0 ∧
      matchLoop patternA "prog" sampleFiles = sampleFiles ∧
      (-(-2 : Int)) < (sampleFiles.length : Int) ∧
      countSelect (-2) sampleFiles
        = .selected (sampleFiles.take ((sampleFiles.length : Int) + (-2)).toNat)) ∧
    ((-9223372036854775808 : Int) < -5 ∧ (-5 : Int) < 0 ∧
      sampleFiles ≠ [] ∧ (sampleFiles.length : Int) ≤ (-(-5 : Int)) ∧
      action patternA "prog" sampleFiles (-5) false false none none (fun _ => true)
        = .allKept ∧
      isError (action patternA "prog" sampleFiles (-5) false false none none
        (fun _ => true)) = false ∧
      attemptedDeletions (action patternA "prog" sampleFiles (-5) false false none none
        (fun _ => true)) = []) := by
  constructor
  · refine ⟨by decide, by decide, by decide, by decide, ?_⟩
    exact ((countSelector_neg_spec (-2) sampleFiles patternA "prog" sampleFiles false
      false none none (fun _ => true) (by decide) (by decide) (by decide)).1
      (by decide)).1
  · refine ⟨by decide, by decide, by decide, by decide, ?_⟩
    exact (countSelector_neg_spec (-5) sampleFiles patternA "prog" sampleFiles false
      false none none (fun _ => true) (by decide) (by decide) (by decide)).2
      (by decide) (by decide)

/-- Counterexample to C2 as stated: at `n = -2^63` (a legal value of the
64-bit `--number` flag) with three matches, `len <= -n` mathematically, yet
the run does not report "all kept" and exit zero — the wrapping negation
`-number` makes the guard `len(arrMatch) > -number` true and the slice bound
`len(arrMatch)+number` negative, so the program panics (a non-zero, error
exit). -/
theorem countSelector_min_int_crash :
    action patternA "prog" sampleFiles (-9223372036854775808) false false none none
        (fun _ => true) = .crashed ∧
    isError Outcome.crashed = true ∧
    Outcome.crashed ≠ Outcome.allKept := by
  exact ⟨by decide, rfl, by decide⟩

/-! ## Directory listing (listByTime) -/

lemma collectRegular_eq (entries : List DirEntry) :
    collectRegular entries
      = (entries.filter (fun e => !e.isDir)).map (fun e => e.info) := by
  induction entries with
  | nil => rfl
  | cons e rest ih =>
      cases h : e.isDir <;> simp [collectRegular, h, List.filter_cons, ih]

/-- C4 (amended): on success `listByTime` returns exactly the regular
(non-directory) entries of the directory — each with its name, byte size and
modification timestamp — as a list sorted ascending by modification
timestamp.  The order among entries with equal timestamps is unspecified
(`sort.Sort` is documented as not stable), not necessarily the order of the
underlying directory read; see the counterexample. -/
theorem listByTime_sorted_spec (entries : List DirEntry) (output : List FileInfo)
    (h : listByTimeRel entries output) :
    List.Perm output ((entries.filter (fun e => !e.isDir)).map (fun e => e.info)) ∧
    List.Chain' (fun a b => a.modTime ≤ b.modTime) output := by
  rcases h with ⟨hperm, hsorted⟩
  constructor
  · rw [collectRegular_eq] at hperm
    exact hperm
  · refine List.Pairwise.chain' (hsorted.imp ?_)
    intro a b hab
    have hnot : ¬ b.modTime < a.modTime := of_decide_eq_false hab
    omega

/-- Sample directory entry used by the C4 witness. -/
def sampleEntry : DirEntry := ⟨false, ⟨"a1", 1, 10⟩⟩

/-- Witness for C4 on a one-entry directory. -/
theorem listByTime_sorted_spec_witness :
    listByTimeRel [sampleEntry] [sampleEntry.info] ∧
    (List.Perm [sampleEntry.info]
        (([sampleEntry].filter (fun e => !e.isDir)).map (fun e => e.info)) ∧
      List.Chain' (fun a b => a.modTime ≤ b.modTime) [sampleEntry.info]) := by
  have h : listByTimeRel [sampleEntry] [sampleEntry.info] :=
    ⟨List.Perm.refl _, by simp⟩
  exact ⟨h, listByTime_sorted_spec [sampleEntry] [sampleEntry.info] h⟩

/-- First of two sample files sharing one modification timestamp. -/
def tieA : FileInfo := ⟨"tie-a", 1, 100⟩

/-- Second of two sample files sharing one modification timestamp. -/
def tieB : FileInfo := ⟨"tie-b", 2, 100⟩

/-- Counterexample to C4 as stated: the sort step is Go's `sort.Sort`, whose
contract does not guarantee stability, so for a directory read that yields
two regular entries with equal modification timestamps in the order
`tieA, tieB`, the reversed output `tieB, tieA` is a permitted result of
`listByTime` — entries with equal timestamps need NOT keep the relative
order in which the directory read yielded them. -/
theorem listByTime_stability_cex :
    listByTimeRel [⟨false, tieA⟩, ⟨false, tieB⟩] [tieB, tieA] ∧
    tieA.modTime = tieB.modTime ∧
    [tieB, tieA] ≠ [tieA, tieB] := by
  refine ⟨⟨?_, ?_⟩, rfl, by decide⟩
  · show List.Perm [tieB, tieA] [tieA, tieB]
    exact List.Perm.swap tieA tieB []
  · decide

/-! ## Presenter (printResult) -/

lemma printLoop_spec (r : List FileInfo) : ∀ i t : Nat,
    t < 18446744073709551616 →
    (printLoop i t r).1 = r.take (30 - i) ∧
    (printLoop i t r).2
      = (t + (r.map (fun fi => u64 fi.size)).sum) % 18446744073709551616 := by
  induction r with
  | nil =>
      intro i t ht
      simp [printLoop, Nat.mod_eq_of_lt ht]
  | cons fi rest ih =>
      intro i t ht
      have ht' : (t + u64 fi.size) % 18446744073709551616 < 18446744073709551616 :=
        Nat.mod_lt _ (by omega)
      rcases ih (i + 1) ((t + u64 fi.size) % 18446744073709551616) ht' with ⟨h1, h2⟩
      simp only [printLoop]
      by_cases hi : 30 ≤ i
      · rw [if_pos hi]
        refine ⟨?_, ?_⟩
        · rw [h1]
          have e1 : 30 - i = 0 := by omega
          have e2 : 30 - (i + 1) = 0 := by omega
          rw [e1, e2, List.take_zero, List.take_zero]
        · rw [h2, List.map_cons, List.sum_cons, Nat.mod_add_mod, Nat.add_assoc]
      · rw [if_neg hi]
        refine ⟨?_, ?_⟩
        · show fi :: (printLoop (i + 1) _ rest).1 = _
          rw [h1]
          have e1 : 30 - i = (30 - (i + 1)) + 1 := by omega
          rw [e1, List.take_succ_cons]
        · show (printLoop (i + 1) _ rest).2 = _
          rw [h2, List.map_cons, List.sum_cons, Nat.mod_add_mod, Nat.add_assoc]

/-- C8: the Presenter appends at most the first 30 selected records, in
selection order, as table rows; the summary's total count and total
cumulative byte size (a `uint64`, hence mod 2^64) range over ALL selected
records, not only the displayed ones; and the summary carries the truncation
prefix exactly when more than 30 records were selected. -/
theorem printResult_spec (r : List FileInfo) :
    (printResult r).rows = r.take 30 ∧
    (printResult r).totalCount = r.length ∧
    (printResult r).totalSize
      = ((r.map (fun fi => u64 fi.size)).sum) % 18446744073709551616 ∧
    ((printResult r).truncated = true ↔ 30 < r.length) := by
  rcases printLoop_spec r 0 0 (by omega) with ⟨h1, h2⟩
  refine ⟨?_, rfl, ?_, ?_⟩
  · show (printLoop 0 0 r).1 = r.take 30
    rw [h1]
  · show (printLoop 0 0 r).2 = _
    rw [h2, Nat.zero_add]
  · show decide (30 < r.length) = true ↔ 30 < r.length
    exact decide_eq_true_iff

/-! ## Deleter -/

/-- C6: the Deleter attempts removal of every file of the confirmed set, in
order (an individual failure does not stop the remaining attempts), and the
run exits with an error precisely when at least one removal failed; when
every removal succeeds the outcome is the non-error success report. -/
theorem deleter_spec (rk : String → Bool) (l : List FileInfo) :
    (deleteLoop rk l).1 = l.map (fun fi => fi.name) ∧
    ((deleteLoop rk l).2 = true ↔ ∃ fi ∈ l, rk fi.name = false) ∧
    runDelete rk l = Outcome.deleted (deleteLoop rk l).1 (deleteLoop rk l).2 ∧
    isError (runDelete rk l) = (deleteLoop rk l).2 := by
  refine ⟨?_, ?_, rfl, rfl⟩
  · induction l with
    | nil => rfl
    | cons fi rest ih => simp [deleteLoop, ih]
  · induction l with
    | nil => simp [deleteLoop]
    | cons fi rest ih =>
        simp only [deleteLoop, Bool.or_eq_true, Bool.not_eq_true', ih]
        constructor
        · rintro (h | ⟨x, hx, hP⟩)
          · exact ⟨fi, List.mem_cons_self fi rest, h⟩
          · exact ⟨x, List.mem_cons_of_mem fi hx, hP⟩
        · rintro ⟨x, hx, hP⟩
          rcases List.mem_cons.mp hx with rfl | hx
          · exact Or.inl hP
          · exact Or.inr ⟨x, hx, hP⟩

/-! ## Confirmation flow -/

lemma confirm_pick_empty (m : List FileInfo) (rk : String → Bool) :
    confirmAndDelete m false (some "Pick") (some []) rk = .aborted := by
  simp [confirmAndDelete]

lemma confirm_no (m : List FileInfo) (pk : Option (List String)) (rk : String → Bool) :
    confirmAndDelete m false (some "No") pk rk = .aborted := by
  simp [confirmAndDelete]

lemma confirm_none (m : List FileInfo) (pk : Option (List String)) (rk : String → Bool) :
    confirmAndDelete m false none pk rk = .aborted := by
  simp [confirmAndDelete]

/-- C5: with the dry-run flag set, the run's outcome is independent of the
prompt results and of the behaviour of `os.Remove` (the confirmation prompt
and the deletion step are never reached), and no removal is ever attempted. -/
theorem dryRun_no_deletion_spec (re : Regex) (self : String) (files : List FileInfo)
    (n : Int) (yF : Bool) (pr pr' : Option String) (pk pk' : Option (List String))
    (rk rk' : String → Bool) :
    attemptedDeletions (action re self files n true yF pr pk rk) = [] ∧
    action re self files n true yF pr pk rk
      = action re self files n true yF pr' pk' rk' := by
  by_cases hz : (matchLoop re self files).length = 0
  · simp [action, hz, attemptedDeletions, isError]
  · cases hsel : countSelect n (matchLoop re self files) with
    | selected sel => simp [action, hz, hsel, attemptedDeletions]
    | allKept => simp [action, hz, hsel, attemptedDeletions]
    | crashed => simp [action, hz, hsel, attemptedDeletions]

/-- C7: in the interactive flow, choosing "Pick" and leaving zero items
checked yields exactly the same outcome as choosing "No": the run aborts as a
non-error and no removal is attempted. -/
theorem pickEmpty_eq_no_spec (re : Regex) (self : String) (files : List FileInfo)
    (n : Int) (pk : Option (List String)) (rk : String → Bool)
    (hn : -9223372036854775808 < n) :
    action re self files n false false (some "Pick") (some []) rk
      = action re self files n false false (some "No") pk rk ∧
    attemptedDeletions
      (action re self files n false false (some "Pick") (some []) rk) = [] ∧
    isError (action re self files n false false (some "Pick") (some []) rk)
      = false := by
  by_cases hz : (matchLoop re self files).length = 0
  · simp [action, hz, attemptedDeletions, isError]
  · cases hsel : countSelect n (matchLoop re self files) with
    | selected sel =>
        simp [action, hz, hsel, confirm_pick_empty, confirm_no,
          attemptedDeletions, isError]
    | allKept => simp [action, hz, hsel, attemptedDeletions, isError]
    | crashed => exact absurd hsel (countSelect_ne_crashed n _ hn)

/-- Witness for C7 on a concrete three-file run with `n = 0`. -/
theorem pickEmpty_eq_no_spec_witness :
    ((-9223372036854775808 : Int) < 0) ∧
    (action patternA "prog" sampleFiles 0 false false (some "Pick") (some [])
        (fun _ => true)
      = action patternA "prog" sampleFiles 0 false false (some "No") none
        (fun _ => true) ∧
    attemptedDeletions (action patternA "prog" sampleFiles 0 false false
      (some "Pick") (some []) (fun _ => true)) = [] ∧
    isError (action patternA "prog" sampleFiles 0 false false (some "Pick")
      (some []) (fun _ => true)) = false) :=
  ⟨by decide, pickEmpty_eq_no_spec patternA "prog" sampleFiles 0 none
    (fun _ => true) (by decide)⟩

/-- C10: the confirmation prompt defaults to abort: the answer is preset to
"No" and the prompt's error is ignored, so a run in which the prompt fails to
obtain a choice behaves exactly like an explicit "No" — it aborts with no
removal attempted and a non-error exit. -/
theorem promptDefault_no_spec (re : Regex) (self : String) (files : List FileInfo)
    (n : Int) (pk : Option (List String)) (rk : String → Bool)
    (hn : -9223372036854775808 < n) :
    action re self files n false false none pk rk
      = action re self files n false false (some "No") pk rk ∧
    attemptedDeletions (action re self files n false false none pk rk) = [] ∧
    isError (action re self files n false false none pk rk) = false := by
  by_cases hz : (matchLoop re self files).length = 0
  · simp [action, hz, attemptedDeletions, isError]
  · cases hsel : countSelect n (matchLoop re self files) with
    | selected sel =>
        simp [action, hz, hsel, confirm_none, confirm_no,
          attemptedDeletions, isError]
    | allKept => simp [action, hz, hsel, attemptedDeletions, isError]
    | crashed => exact absurd hsel (countSelect_ne_crashed n _ hn)

/-- Witness for C10 on a concrete three-file run with `n = 0`. -/
theorem promptDefault_no_spec_witness :
    ((-9223372036854775808 : Int) < 0) ∧
    (action patternA "prog" sampleFiles 0 false false none none (fun _ => true)
      = action patternA "prog" sampleFiles 0 false false (some "No") none
        (fun _ => true) ∧
    attemptedDeletions (action patternA "prog" sampleFiles 0 false false none none
      (fun _ => true)) = [] ∧
    isError (action patternA "prog" sampleFiles 0 false false none none
      (fun _ => true)) = false) :=
  ⟨by decide, promptDefault_no_spec patternA "prog" sampleFiles 0 none
    (fun _ => true) (by decide)⟩
